import Mathlib

/-
Verification of the ANYRITE blogging backend (src/server.py).

The Mongo collections (users, articles, comments, likes) are embedded as
Lean lists held in a DB record; each FastAPI handler becomes a pure
function from the DB (plus the request data, the generated uuid ids and
the current time, which the Python code obtains from uuid4() and
datetime.now()) to an Except value: a raised HTTPException becomes an
error carrying its status code and detail string, and a successful
handler returns the updated DB together with the response payload.
Mongo operations are translated as: find_one = List.find? (first match
in insertion order), insert_one = append, update_one with a filter =
update of the first matching element, delete_one = List.eraseP,
delete_many = List.filter with the negated filter,
find(...).sort("created_at", -1).to_list(n) = sort descending by
created_at then List.take n.  Timestamps are modelled as Nat instants
(the code stores ISO-8601 strings whose lexicographic order agrees with
instant order).  The external jwt and passlib libraries are modelled by
idealized semantics, documented at their definitions.
-/

/-- An HTTPException as raised by the handlers: status code plus detail. -/
structure HTTPError where
  status : Nat
  detail : String
deriving DecidableEq, Repr

/-- Modelled semantics of passlib CryptContext(schemes=["bcrypt"]): a
salted one-way hash.  The one-way property is not representable in a
functional model, so the hash is an opaque record of the salt and the
hashed password; verification succeeds exactly when the passwords
agree, the idealized collision-free reading of bcrypt. -/
structure BcryptHash where
  salt : Nat
  hashed_of : String
deriving DecidableEq, Repr

/-- server.py hash_password: pwd_context.hash(password) with a fresh
random salt (passed explicitly here). -/
def hash_password (password : String) (salt : Nat) : BcryptHash :=
  ⟨salt, password⟩

/-- server.py verify_password: pwd_context.verify(plain, hashed). -/
def verify_password (plain_password : String) (hashed_password : BcryptHash) : Bool :=
  plain_password == hashed_password.hashed_of

/-- Stored document of the users collection (register writes id,
username, email, bio, avatar, created_at, password_hash; bio and avatar
are read back with dict.get, hence Option). -/
structure StoredUser where
  id : String
  username : String
  email : String
  bio : Option String
  avatar : Option String
  created_at : Nat
  password_hash : BcryptHash
deriving DecidableEq, Repr

/-- Stored document of the articles collection (Article model of
server.py). -/
structure StoredArticle where
  id : String
  author_id : String
  author_username : String
  title : String
  content : String
  tags : List String
  cover_image : String
  likes_count : Int
  comments_count : Int
  created_at : Nat
  updated_at : Nat
deriving DecidableEq, Repr

/-- Stored document of the comments collection (Comment model). -/
structure StoredComment where
  id : String
  article_id : String
  user_id : String
  username : String
  content : String
  created_at : Nat
deriving DecidableEq, Repr

/-- Stored document of the likes collection (Like model). -/
structure StoredLike where
  id : String
  article_id : String
  user_id : String
  created_at : Nat
deriving DecidableEq, Repr

/-- The four Mongo collections used by server.py, in insertion order. -/
structure DB where
  users : List StoredUser
  articles : List StoredArticle
  comments : List StoredComment
  likes : List StoredLike
deriving DecidableEq, Repr

def emptyDB : DB := ⟨[], [], [], []⟩

/-- SECRET_KEY of server.py (os.environ.get fallback value). -/
def SECRET_KEY : String := "anyrite-secret-key-pixel-blog-2025"

/-- The payload claims used by server.py: sub (subject) and exp
(absolute expiry instant). -/
structure JwtPayload where
  sub : Option String
  exp : Nat
deriving DecidableEq, Repr

/-- Modelled semantics of the jwt library's token values: either a
well-formed token signed with some key, or a malformed string. -/
inductive Token where
  | signed (payload : JwtPayload) (key : String)
  | malformed (raw : String)
deriving DecidableEq, Repr

inductive JwtError where
  | expiredSignature
  | jwtError
deriving DecidableEq, Repr

/-- Modelled jwt.encode: signs the payload with the key. -/
def jwtEncode (payload : JwtPayload) (key : String) : Token :=
  .signed payload key

/-- Modelled jwt.decode(token, key, algorithms): raises JWTError on a
malformed token or a signature made with a different key, raises
ExpiredSignatureError when the embedded exp is not in the future, and
otherwise returns the payload. -/
def jwtDecode (t : Token) (key : String) (now : Nat) : Except JwtError JwtPayload :=
  match t with
  | .malformed _ => .error .jwtError
  | .signed p k =>
    if k = key then
      if p.exp ≤ now then .error .expiredSignature else .ok p
    else .error .jwtError

/-- Thirty days of timedelta(days=30), in seconds. -/
def THIRTY_DAYS : Nat := 30 * 86400

/-- server.py create_access_token on data = {"sub": sub}: adds
exp = now + 30 days and signs with SECRET_KEY. -/
def create_access_token (sub : String) (now : Nat) : Token :=
  jwtEncode ⟨some sub, now + THIRTY_DAYS⟩ SECRET_KEY

def TokenExpired : HTTPError := ⟨401, "Token expired"⟩
def TokenInvalid : HTTPError := ⟨401, "Invalid token"⟩
def InvalidAuthentication : HTTPError := ⟨401, "Invalid authentication"⟩
def UserNotFound : HTTPError := ⟨401, "User not found"⟩
def Forbidden : HTTPError := ⟨403, "Not authorized"⟩
def ArticleNotFound : HTTPError := ⟨404, "Article not found"⟩
def LikeNotFound : HTTPError := ⟨404, "Like not found"⟩
def Conflict : HTTPError := ⟨400, "User already exists"⟩
def InvalidCredentials : HTTPError := ⟨401, "Invalid credentials"⟩

/-- server.py get_current_user: decode the bearer token, look up the
subject in the users collection; jwt errors map to 401 Token
expired / Invalid token, a missing sub claim to 401 Invalid
authentication, an unknown subject to 401 User not found. -/
def get_current_user (s : DB) (t : Token) (now : Nat) : Except HTTPError StoredUser :=
  match jwtDecode t SECRET_KEY now with
  | .error .expiredSignature => .error TokenExpired
  | .error .jwtError => .error TokenInvalid
  | .ok payload =>
    match payload.sub with
    | none => .error InvalidAuthentication
    | some user_id =>
      match s.users.find? (fun u => u.id == user_id) with
      | none => .error UserNotFound
      | some u => .ok u

/-- Mongo update_one(filter, update): applies the update to the first
matching document, leaving the rest unchanged. -/
def updateFirst {α : Type} (p : α → Bool) (f : α → α) : List α → List α
  | [] => []
  | a :: l => if p a then f a :: l else a :: updateFirst p f l

/-- Newest-created-first order on articles (sort("created_at", -1)). -/
def newerFirstA (a b : StoredArticle) : Prop :=
  b.created_at ≤ a.created_at

instance : DecidableRel newerFirstA := fun a b => Nat.decLe _ _

instance : IsTotal StoredArticle newerFirstA :=
  ⟨fun a b => (Nat.le_total a.created_at b.created_at).symm⟩

instance : IsTrans StoredArticle newerFirstA :=
  ⟨fun _ _ _ hab hbc => Nat.le_trans hbc hab⟩

/-- Newest-created-first order on comments (sort("created_at", -1)). -/
def newerFirstC (a b : StoredComment) : Prop :=
  b.created_at ≤ a.created_at

instance : DecidableRel newerFirstC := fun a b => Nat.decLe _ _

instance : IsTotal StoredComment newerFirstC :=
  ⟨fun a b => (Nat.le_total a.created_at b.created_at).symm⟩

instance : IsTrans StoredComment newerFirstC :=
  ⟨fun _ _ _ hab hbc => Nat.le_trans hbc hab⟩

/-- Request body of POST /api/auth/register (UserRegister model). -/
structure UserRegister where
  username : String
  email : String
  password : String
deriving DecidableEq, Repr

/-- Request body of POST /api/auth/login (UserLogin model). -/
structure UserLogin where
  email : String
  password : String
deriving DecidableEq, Repr

/-- The user object embedded in register/login/me responses: exactly the
fields id, username, email, bio, avatar that the handlers copy out. -/
structure UserObj where
  id : String
  username : String
  email : String
  bio : String
  avatar : String
deriving DecidableEq, Repr

/-- Response of register and login: token plus user object. -/
structure AuthResponse where
  token : Token
  user : UserObj
deriving DecidableEq, Repr

/-- server.py register: reject when a stored user already has the same
email or username (400 User already exists, mapped to the spec's
Conflict); otherwise insert the new user (with hashed password and
empty bio/avatar) and return a token for the new id. -/
def register (s : DB) (r : UserRegister) (newId : String) (now salt : Nat) :
    Except HTTPError (DB × AuthResponse) :=
  match s.users.find? (fun u => u.email == r.email || u.username == r.username) with
  | some _ => .error Conflict
  | none =>
    let user : StoredUser :=
      ⟨newId, r.username, r.email, some "", some "", now, hash_password r.password salt⟩
    .ok ({ s with users := s.users ++ [user] },
         ⟨create_access_token newId now, ⟨newId, r.username, r.email, "", ""⟩⟩)

/-- server.py login: look up by email, verify the password, and return a
token plus user object; any failure is 401 Invalid credentials. -/
def login (s : DB) (c : UserLogin) (now : Nat) : Except HTTPError AuthResponse :=
  match s.users.find? (fun u => u.email == c.email) with
  | none => .error InvalidCredentials
  | some u =>
    if verify_password c.password u.password_hash then
      .ok ⟨create_access_token u.id now,
           ⟨u.id, u.username, u.email, u.bio.getD "", u.avatar.getD ""⟩⟩
    else .error InvalidCredentials

/-- server.py get_me: echoes id, username, email, bio, avatar of the
resolved current user (bio/avatar via dict.get with default ""). -/
def get_me (u : StoredUser) : UserObj :=
  ⟨u.id, u.username, u.email, u.bio.getD "", u.avatar.getD ""⟩

/-- A stored user under the projection {"password_hash": 0} used by
get_user_profile. -/
structure PublicUser where
  id : String
  username : String
  email : String
  bio : Option String
  avatar : Option String
  created_at : Nat
deriving DecidableEq, Repr

def StoredUser.public (u : StoredUser) : PublicUser :=
  ⟨u.id, u.username, u.email, u.bio, u.avatar, u.created_at⟩

/-- Response of GET /api/users/{username}. -/
structure ProfileResponse where
  user : PublicUser
  articles : List StoredArticle
deriving DecidableEq, Repr

def ProfileUserNotFound : HTTPError := ⟨404, "User not found"⟩

/-- The articles part of get_user_profile: articles by that author
username, newest first, to_list(100). -/
def profile_articles (s : DB) (username : String) : List StoredArticle :=
  (List.insertionSort newerFirstA
    (s.articles.filter (fun a => a.author_username == username))).take 100

/-- server.py get_user_profile: user by username (password_hash
projected away) plus up to 100 of their articles, newest first. -/
def get_user_profile (s : DB) (username : String) : Except HTTPError ProfileResponse :=
  match s.users.find? (fun u => u.username == username) with
  | none => .error ProfileUserNotFound
  | some u => .ok ⟨u.public, profile_articles s username⟩

/-- The Mongo query built by get_articles: {"tags": tag} when tag is
truthy (present and non-empty), {"author_username": author} when author
is truthy; an array-field equality matches when the array contains the
value. -/
def articleMatches (tag author : Option String) (a : StoredArticle) : Bool :=
  (match tag with
   | none => true
   | some t => if t = "" then true else a.tags.contains t) &&
  (match author with
   | none => true
   | some w => if w = "" then true else a.author_username == w)

/-- server.py get_articles: filtered find, sorted newest first,
to_list(1000). -/
def get_articles (s : DB) (tag author : Option String) : List StoredArticle :=
  (List.insertionSort newerFirstA (s.articles.filter (articleMatches tag author))).take 1000

/-- server.py get_article: point lookup, 404 when absent. -/
def get_article (s : DB) (article_id : String) : Except HTTPError StoredArticle :=
  match s.articles.find? (fun a => a.id == article_id) with
  | none => .error ArticleNotFound
  | some a => .ok a

/-- Request body of POST /api/articles (ArticleCreate model; the code
defaults tags to [] and cover_image to ""). -/
structure ArticleCreate where
  title : String
  content : String
  tags : List String
  cover_image : String
deriving DecidableEq, Repr

/-- server.py create_article: builds an Article with the actor's id and
username snapshot, zero counters, created_at = updated_at = now, and
inserts it; returns the article. -/
def create_article (s : DB) (uid uname : String) (d : ArticleCreate) (aid : String)
    (now : Nat) : DB × StoredArticle :=
  let a : StoredArticle :=
    ⟨aid, uid, uname, d.title, d.content, d.tags, d.cover_image, 0, 0, now, now⟩
  ({ s with articles := s.articles ++ [a] }, a)

/-- Request body of PUT /api/articles/{id} (ArticleUpdate model): every
field optional, none meaning not provided. -/
structure ArticleUpdate where
  title : Option String
  content : Option String
  tags : Option (List String)
  cover_image : Option String
deriving DecidableEq, Repr

/-- The $set document built by update_article: the provided (non-None)
patch fields plus updated_at = now, applied to a stored article. -/
def applyPatch (a : StoredArticle) (p : ArticleUpdate) (now : Nat) : StoredArticle :=
  { a with
    title := p.title.getD a.title
    content := p.content.getD a.content
    tags := p.tags.getD a.tags
    cover_image := p.cover_image.getD a.cover_image
    updated_at := now }

/-- server.py update_article: 404 when the article is absent, 403 Not
authorized when the actor is not the author, otherwise $set the
provided fields plus updated_at on the stored article and return the
re-fetched article (the unguarded re-fetch is modelled with a 500
fallback that is proved unreachable). -/
def update_article (s : DB) (article_id : String) (patch : ArticleUpdate)
    (uid : String) (now : Nat) : Except HTTPError (DB × StoredArticle) :=
  match s.articles.find? (fun a => a.id == article_id) with
  | none => .error ArticleNotFound
  | some a =>
    if a.author_id ≠ uid then .error Forbidden
    else
      let articles' :=
        updateFirst (fun b => b.id == article_id) (fun b => applyPatch b patch now) s.articles
      match articles'.find? (fun b => b.id == article_id) with
      | none => .error ⟨500, "Internal Server Error"⟩
      | some updated => .ok ({ s with articles := articles' }, updated)

/-- server.py delete_article: 404 when absent, 403 Not authorized when
the actor is not the author, otherwise delete_one the article and
delete_many the comments and likes whose article_id references it. -/
def delete_article (s : DB) (article_id uid : String) : Except HTTPError DB :=
  match s.articles.find? (fun a => a.id == article_id) with
  | none => .error ArticleNotFound
  | some a =>
    if a.author_id ≠ uid then .error Forbidden
    else
      .ok { s with
        articles := s.articles.eraseP (fun b => b.id == article_id),
        comments := s.comments.filter (fun c => !(c.article_id == article_id)),
        likes := s.likes.filter (fun l => !(l.article_id == article_id)) }

/-- server.py like_article: 404 when the article is absent; if a like by
this user already exists, no-op success "Already liked"; otherwise
insert the like and $inc likes_count by 1. -/
def like_article (s : DB) (article_id uid likeId : String) (now : Nat) :
    Except HTTPError (DB × String) :=
  match s.articles.find? (fun a => a.id == article_id) with
  | none => .error ArticleNotFound
  | some _ =>
    match s.likes.find? (fun l => l.article_id == article_id && l.user_id == uid) with
    | some _ => .ok (s, "Already liked")
    | none =>
      .ok ({ s with
              likes := s.likes ++ [⟨likeId, article_id, uid, now⟩],
              articles := updateFirst (fun a => a.id == article_id)
                (fun a => { a with likes_count := a.likes_count + 1 }) s.articles },
           "Liked")

/-- server.py unlike_article: delete_one the like of (article, user);
when a document was deleted, $inc likes_count by -1 and succeed, else
404 Like not found. -/
def unlike_article (s : DB) (article_id uid : String) : Except HTTPError (DB × String) :=
  if (s.likes.find? (fun l => l.article_id == article_id && l.user_id == uid)).isSome then
    .ok ({ s with
            likes := s.likes.eraseP (fun l => l.article_id == article_id && l.user_id == uid),
            articles := updateFirst (fun a => a.id == article_id)
              (fun a => { a with likes_count := a.likes_count - 1 }) s.articles },
         "Unliked")
  else .error LikeNotFound

/-- server.py get_comments: comments of the article, newest first,
to_list(1000). -/
def get_comments (s : DB) (article_id : String) : List StoredComment :=
  (List.insertionSort newerFirstC
    (s.comments.filter (fun c => c.article_id == article_id))).take 1000

/-- server.py create_comment: 404 when the article is absent; otherwise
insert the comment (username snapshot of the actor) and $inc
comments_count by 1; returns the comment. -/
def create_comment (s : DB) (article_id uid uname content cid : String) (now : Nat) :
    Except HTTPError (DB × StoredComment) :=
  match s.articles.find? (fun a => a.id == article_id) with
  | none => .error ArticleNotFound
  | some _ =>
    let c : StoredComment := ⟨cid, article_id, uid, uname, content, now⟩
    .ok ({ s with
            comments := s.comments ++ [c],
            articles := updateFirst (fun a => a.id == article_id)
              (fun a => { a with comments_count := a.comments_count + 1 }) s.articles },
         c)

/-- First match of a keyed lookup in a list with pairwise-distinct keys
is the unique member carrying that key. -/
theorem find?_key_eq {α : Type} (key : α → String) (l : List α) (u : α)
    (hnodup : (l.map key).Nodup) (hmem : u ∈ l) :
    l.find? (fun v => key v == key u) = some u := by
  induction l with
  | nil => cases hmem
  | cons a l ih =>
    simp only [List.map_cons, List.nodup_cons] at hnodup
    rcases List.mem_cons.mp hmem with rfl | hmem'
    · simp
    · have hne : key a ≠ key u := by
        intro h
        exact hnodup.1 (h ▸ List.mem_map_of_mem key hmem')
      rw [List.find?_cons_of_neg]
      · exact ih hnodup.2 hmem'
      · simpa using hne

theorem updateFirst_of_forall_not {α : Type} (p : α → Bool) (f : α → α) :
    ∀ l : List α, (∀ b ∈ l, ¬ p b) → updateFirst p f l = l
  | [], _ => rfl
  | a :: l, h => by
    have ha : ¬ p a := h a (List.mem_cons_self a l)
    simp only [updateFirst, if_neg ha]
    rw [updateFirst_of_forall_not p f l (fun b hb => h b (List.mem_cons_of_mem a hb))]

theorem updateFirst_append {α : Type} (p : α → Bool) (f : α → α) :
    ∀ (l₁ : List α) (a : α) (l₂ : List α), (∀ b ∈ l₁, ¬ p b) → p a →
      updateFirst p f (l₁ ++ a :: l₂) = l₁ ++ f a :: l₂
  | [], a, l₂, _, ha => by simp [updateFirst, ha]
  | x :: l₁, a, l₂, h, ha => by
    have hx : ¬ p x := h x (List.mem_cons_self x l₁)
    have hrec := updateFirst_append p f l₁ a l₂
      (fun b hb => h b (List.mem_cons_of_mem x hb)) ha
    simp only [List.cons_append, updateFirst, if_neg hx]
    exact congrArg (List.cons x) hrec

/-- A successful find? splits the list into a non-matching prefix, the
found element, and a suffix. -/
theorem find?_eq_some_decomp {α : Type} {p : α → Bool} :
    ∀ {l : List α} {a : α}, l.find? p = some a →
      ∃ l₁ l₂, (∀ b ∈ l₁, ¬ p b) ∧ p a ∧ l = l₁ ++ a :: l₂
  | [], a, h => by simp at h
  | x :: l, a, h => by
    by_cases hx : p x
    · rw [List.find?_cons_of_pos _ hx] at h
      cases h
      exact ⟨[], l, by simp, hx, rfl⟩
    · rw [List.find?_cons_of_neg _ hx] at h
      obtain ⟨l₁, l₂, h₁, h₂, h₃⟩ := find?_eq_some_decomp h
      refine ⟨x :: l₁, l₂, ?_, h₂, by simp [h₃]⟩
      intro b hb
      rcases List.mem_cons.mp hb with rfl | hb'
      · exact hx
      · exact h₁ b hb'

theorem find?_updateFirst {α : Type} (p : α → Bool) (f : α → α) :
    ∀ {l : List α} {a : α}, l.find? p = some a → p (f a) →
      (updateFirst p f l).find? p = some (f a)
  | [], a, h, _ => by simp at h
  | x :: l, a, h, hf => by
    by_cases hx : p x
    · rw [List.find?_cons_of_pos _ hx] at h
      cases h
      simp [updateFirst, hx, hf]
    · rw [List.find?_cons_of_neg _ hx] at h
      simp only [updateFirst, if_neg hx]
      rw [List.find?_cons_of_neg _ hx]
      exact find?_updateFirst p f h hf

theorem map_updateFirst {α β : Type} (g : α → β) (p : α → Bool) (f : α → α)
    (hgf : ∀ a, g (f a) = g a) :
    ∀ l : List α, (updateFirst p f l).map g = l.map g
  | [] => rfl
  | a :: l => by
    by_cases ha : p a
    · simp [updateFirst, ha, hgf a]
    · simp only [updateFirst, if_neg ha, List.map_cons]
      rw [map_updateFirst g p f hgf l]

/-- C4: verify_password(p, hash_password(p)) is true for every password
p and salt; for distinct passwords p ≠ q, verify_password(p,
hash_password(q)) is false. -/
theorem password_roundtrip (p q : String) (salt : Nat) (hpq : p ≠ q) :
    verify_password p (hash_password p salt) = true ∧
    verify_password p (hash_password q salt) = false := by
  constructor
  · simp [verify_password, hash_password]
  · simp [verify_password, hash_password]
    exact hpq

theorem password_roundtrip_witness :
    verify_password "hunter2" (hash_password "hunter2" 7) = true ∧
    verify_password "hunter2" (hash_password "letmein" 7) = false :=
  password_roundtrip "hunter2" "letmein" 7 (by decide)

/-- C2 (amended): a token issued for a stored user id U validates, before
its embedded expiry, to the user record with id U; at or after the expiry
it fails with TokenExpired; a bad signature or a malformed token fails
with TokenInvalid; a token missing the sub claim fails with the distinct
401 Invalid authentication error (not TokenInvalid). -/
theorem token_lifecycle (s : DB) (u : StoredUser) (t0 now : Nat)
    (hmem : u ∈ s.users)
    (hnodup : (s.users.map (fun v => v.id)).Nodup) :
    (now < t0 + THIRTY_DAYS →
      get_current_user s (create_access_token u.id t0) now = .ok u) ∧
    (t0 + THIRTY_DAYS ≤ now →
      get_current_user s (create_access_token u.id t0) now = .error TokenExpired) ∧
    (∀ p k, k ≠ SECRET_KEY →
      get_current_user s (Token.signed p k) now = .error TokenInvalid) ∧
    (∀ r, get_current_user s (Token.malformed r) now = .error TokenInvalid) ∧
    (∀ e, now < e →
      get_current_user s (Token.signed ⟨none, e⟩ SECRET_KEY) now
        = .error InvalidAuthentication) := by
  refine ⟨?_, ?_, ?_, ?_, ?_⟩
  · intro hlt
    have hdec : jwtDecode (create_access_token u.id t0) SECRET_KEY now
        = Except.ok ⟨some u.id, t0 + THIRTY_DAYS⟩ := by
      simp [jwtDecode, create_access_token, jwtEncode, Nat.not_le.mpr hlt]
    have hfind := find?_key_eq (fun v => v.id) s.users u hnodup hmem
    simp [get_current_user, hdec, hfind]
  · intro hge
    simp [get_current_user, create_access_token, jwtEncode, jwtDecode, hge]
  · intro p k hk
    simp [get_current_user, jwtDecode, hk]
  · intro r
    simp [get_current_user, jwtDecode]
  · intro e he
    simp [get_current_user, jwtDecode, Nat.not_le.mpr he]

theorem token_lifecycle_witness :
    get_current_user
      ⟨[⟨"u1", "alice", "a(at)x.io", some "", some "", 0, ⟨0, "pw"⟩⟩], [], [], []⟩
      (create_access_token "u1" 100) 200
      = .ok ⟨"u1", "alice", "a(at)x.io", some "", some "", 0, ⟨0, "pw"⟩⟩ :=
  (token_lifecycle
      ⟨[⟨"u1", "alice", "a(at)x.io", some "", some "", 0, ⟨0, "pw"⟩⟩], [], [], []⟩
      ⟨"u1", "alice", "a(at)x.io", some "", some "", 0, ⟨0, "pw"⟩⟩ 100 200
      (by decide) (by decide)).1 (by decide)

/-- C2 counterexample: a signed, unexpired token with no sub claim fails
with the 401 Invalid authentication error, which differs from the 401
Invalid token error (TokenInvalid) that the claim asserts for a missing
subject claim. -/
theorem token_missing_sub_counterexample :
    get_current_user emptyDB (Token.signed ⟨none, 100⟩ SECRET_KEY) 0
      = .error InvalidAuthentication ∧
    InvalidAuthentication ≠ TokenInvalid := by
  constructor
  · rfl
  · decide

theorem mem_updateFirst_of_not {α : Type} {p : α → Bool} {f : α → α} {b : α} :
    ∀ {l : List α}, b ∈ l → ¬ p b → b ∈ updateFirst p f l := by
  intro l
  induction l with
  | nil => intro h _; cases h
  | cons x l ih =>
    intro hb hpb
    by_cases hx : p x
    · rcases List.mem_cons.mp hb with rfl | hb'
      · exact absurd hx hpb
      · simp only [updateFirst, if_pos hx]
        exact List.mem_cons_of_mem _ hb'
    · rcases List.mem_cons.mp hb with rfl | hb'
      · simp [updateFirst, hx]
      · simp only [updateFirst, if_neg hx]
        exact List.mem_cons_of_mem _ (ih hb' hpb)

/-- Shared concrete fixtures for the closed witness theorems. -/
def exArt : StoredArticle := ⟨"a1", "u1", "alice", "t", "c", ["x"], "", 0, 0, 0, 0⟩

def exDB : DB := ⟨[], [exArt], [], []⟩

/-- C1: for an existing article, update_article and delete_article fail
with 403 Forbidden when the actor is not the author (and, the failure
being raised before any write, change no stored state); when the actor
is the author both succeed, and after the delete zero comments and
zero likes reference the article id. -/
theorem ownership_guard (s : DB) (article_id uid : String) (a : StoredArticle)
    (patch : ArticleUpdate) (now : Nat)
    (ha : s.articles.find? (fun b => b.id == article_id) = some a) :
    (a.author_id ≠ uid →
      update_article s article_id patch uid now = .error Forbidden ∧
      delete_article s article_id uid = .error Forbidden) ∧
    (a.author_id = uid →
      (∃ s' ret, update_article s article_id patch uid now = .ok (s', ret)) ∧
      (∃ s', delete_article s article_id uid = .ok s' ∧
        s'.comments.countP (fun c => c.article_id == article_id) = 0 ∧
        s'.likes.countP (fun l => l.article_id == article_id) = 0)) := by
  constructor
  · intro hne
    constructor
    · simp [update_article, ha, hne]
    · simp [delete_article, ha, hne]
  · intro hauth
    have hp : (a.id == article_id) = true := by simpa using List.find?_some ha
    constructor
    · have hpf : ((applyPatch a patch now).id == article_id) = true := by
        simpa [applyPatch] using hp
      have hre := find?_updateFirst (fun b : StoredArticle => b.id == article_id) (fun b => applyPatch b patch now) ha hpf
      refine ⟨{ s with articles := updateFirst (fun b => b.id == article_id) (fun b => applyPatch b patch now) s.articles }, applyPatch a patch now, ?_⟩
      simp [update_article, ha, hauth, hre]
    · refine ⟨{ s with
          articles := s.articles.eraseP (fun b => b.id == article_id),
          comments := s.comments.filter (fun c => !(c.article_id == article_id)),
          likes := s.likes.filter (fun l => !(l.article_id == article_id)) },
        ?_, ?_, ?_⟩
      · simp [delete_article, ha, hauth]
      · rw [List.countP_eq_zero]
        intro c hc
        have hmem := (List.mem_filter.mp hc).2
        simpa using hmem
      · rw [List.countP_eq_zero]
        intro l hl
        have hmem := (List.mem_filter.mp hl).2
        simpa using hmem

theorem ownership_guard_witness :
    update_article exDB "a1" ⟨none, none, none, none⟩ "u2" 5 = .error Forbidden ∧
    delete_article exDB "a1" "u2" = .error Forbidden :=
  (ownership_guard exDB "a1" "u2" exArt ⟨none, none, none, none⟩ 5 rfl).1 (by decide)

/-- C8: when the author updates an existing article, the stored and
returned article takes each provided patch field's value, keeps each
omitted field and every non-patchable field (id, author_id,
author_username, likes_count, comments_count, created_at) unchanged,
and has updated_at = now even for an empty patch; users, comments and
likes are untouched. -/
theorem update_article_frame (s : DB) (article_id uid : String) (a : StoredArticle)
    (patch : ArticleUpdate) (now : Nat)
    (ha : s.articles.find? (fun b => b.id == article_id) = some a)
    (hauth : a.author_id = uid) :
    ∃ s' ret, update_article s article_id patch uid now = .ok (s', ret) ∧
      s'.articles.find? (fun b => b.id == article_id) = some ret ∧
      ret.title = patch.title.getD a.title ∧
      ret.content = patch.content.getD a.content ∧
      ret.tags = patch.tags.getD a.tags ∧
      ret.cover_image = patch.cover_image.getD a.cover_image ∧
      ret.id = a.id ∧
      ret.author_id = a.author_id ∧
      ret.author_username = a.author_username ∧
      ret.likes_count = a.likes_count ∧
      ret.comments_count = a.comments_count ∧
      ret.created_at = a.created_at ∧
      ret.updated_at = now ∧
      s'.users = s.users ∧ s'.comments = s.comments ∧ s'.likes = s.likes := by
  have hp : (a.id == article_id) = true := by simpa using List.find?_some ha
  have hpf : ((applyPatch a patch now).id == article_id) = true := by
    simpa [applyPatch] using hp
  have hre := find?_updateFirst (fun b : StoredArticle => b.id == article_id) (fun b => applyPatch b patch now) ha hpf
  refine ⟨{ s with articles := updateFirst (fun b => b.id == article_id) (fun b => applyPatch b patch now) s.articles }, applyPatch a patch now, ?_, ?_, ?_, ?_, ?_, ?_, ?_, ?_, ?_, ?_, ?_, ?_, ?_, rfl, rfl, rfl⟩
  · simp [update_article, ha, hauth, hre]
  · exact hre
  all_goals simp [applyPatch]

theorem update_article_frame_witness :
    ∃ s' ret, update_article exDB "a1" ⟨some "new title", none, none, none⟩ "u1" 9
        = .ok (s', ret) ∧
      ret.title = "new title" ∧ ret.content = exArt.content ∧ ret.updated_at = 9 := by
  obtain ⟨s', ret, h1, _, h3, h4, _, _, _, _, _, _, _, _, h13, _, _, _⟩ :=
    update_article_frame exDB "a1" "u1" exArt ⟨some "new title", none, none, none⟩ 9 rfl rfl
  exact ⟨s', ret, h1, by simpa using h3, by simpa using h4, h13⟩

/-- C5 (amended): for an existing article and a user with no existing
like record on it, liking twice leaves likes_count exactly one higher
(the second call is the no-op success "Already liked"); a subsequent
unlike decrements the counter back exactly once; and unliking when no
like record exists fails with 404 Like not found.  When a like by that
user already exists, both like calls are no-ops and the counter does
not change (see the counterexample to the unconditional claim). -/
theorem like_toggle_counter (s : DB) (article_id uid likeId likeId2 : String)
    (now now2 : Nat) (a : StoredArticle)
    (ha : s.articles.find? (fun b => b.id == article_id) = some a)
    (hno : s.likes.find? (fun l => l.article_id == article_id && l.user_id == uid) = none) :
    ∃ s1, like_article s article_id uid likeId now = .ok (s1, "Liked") ∧
      like_article s1 article_id uid likeId2 now2 = .ok (s1, "Already liked") ∧
      (∃ a1, s1.articles.find? (fun b => b.id == article_id) = some a1 ∧
        a1.likes_count = a.likes_count + 1) ∧
      (∃ s2, unlike_article s1 article_id uid = .ok (s2, "Unliked") ∧
        ∃ a2, s2.articles.find? (fun b => b.id == article_id) = some a2 ∧
          a2.likes_count = a.likes_count) ∧
      unlike_article s article_id uid = .error LikeNotFound := by
  have hp : (a.id == article_id) = true := by simpa using List.find?_some ha
  have hinc : (({ a with likes_count := a.likes_count + 1 } : StoredArticle).id == article_id) = true := by simpa using hp
  have hre1 := find?_updateFirst (fun b : StoredArticle => b.id == article_id) (fun b => { b with likes_count := b.likes_count + 1 }) ha hinc
  set newLike : StoredLike := ⟨likeId, article_id, uid, now⟩ with hnew
  have hnewp : (newLike.article_id == article_id && newLike.user_id == uid) = true := by
    simp [hnew]
  have hfind2 : (s.likes ++ [newLike]).find?
      (fun l => l.article_id == article_id && l.user_id == uid) = some newLike := by
    rw [List.find?_append, hno]
    simp [hnewp]
  refine ⟨{ s with likes := s.likes ++ [newLike], articles := updateFirst (fun b => b.id == article_id) (fun b => { b with likes_count := b.likes_count + 1 }) s.articles }, ?_, ?_, ?_, ?_, ?_⟩
  · simp [like_article, ha, hno]
  · simp only [like_article]
    rw [hre1, hfind2]
  · exact ⟨_, hre1, rfl⟩
  · have hdec : (({ a with likes_count := a.likes_count + 1 - 1 } : StoredArticle).id == article_id) = true := by simpa using hp
    have hre2 := find?_updateFirst (fun b : StoredArticle => b.id == article_id) (fun b => { b with likes_count := b.likes_count - 1 }) hre1 hdec
    have hnolike : ∀ b ∈ s.likes, ¬ (b.article_id == article_id && b.user_id == uid) = true :=
      List.find?_eq_none.mp hno
    have herase : (s.likes ++ [newLike]).eraseP
        (fun l => l.article_id == article_id && l.user_id == uid) = s.likes := by
      rw [List.eraseP_append_right _ hnolike]
      simp [hnewp]
    refine ⟨{ s with articles := updateFirst (fun b => b.id == article_id) (fun b => { b with likes_count := b.likes_count - 1 }) (updateFirst (fun b => b.id == article_id) (fun b => { b with likes_count := b.likes_count + 1 }) s.articles) }, ?_, { a with likes_count := a.likes_count + 1 - 1 }, ?_, by simp⟩
    · simp only [unlike_article, hfind2, Option.isSome_some, if_pos]
      rw [herase]
    · exact hre2
  · simp [unlike_article, hno]

theorem like_toggle_counter_witness :
    ∃ s1, like_article exDB "a1" "u1" "l1" 5 = .ok (s1, "Liked") ∧
      like_article s1 "a1" "u1" "l2" 6 = .ok (s1, "Already liked") ∧
      (∃ a1, s1.articles.find? (fun b => b.id == "a1") = some a1 ∧
        a1.likes_count = exArt.likes_count + 1) ∧
      (∃ s2, unlike_article s1 "a1" "u1" = .ok (s2, "Unliked") ∧
        ∃ a2, s2.articles.find? (fun b => b.id == "a1") = some a2 ∧
          a2.likes_count = exArt.likes_count) ∧
      unlike_article exDB "a1" "u1" = .error LikeNotFound :=
  like_toggle_counter exDB "a1" "u1" "l1" "l2" 5 6 exArt rfl rfl

/-- Fixture for the C5 counterexample: the article already liked by the
user, with a consistent counter of 1. -/
def likedArt : StoredArticle := ⟨"a1", "u1", "alice", "t", "c", ["x"], "", 1, 0, 0, 0⟩

def likedDB : DB := ⟨[], [likedArt], [], [⟨"l1", "a1", "u1", 0⟩]⟩

/-- C5 counterexample: when the user has already liked the article
(stored likes_count 1), calling like_article twice is a pair of no-ops
and the final likes_count is still 1, not one greater than before the
first call. -/
theorem like_twice_counterexample :
    like_article likedDB "a1" "u1" "l2" 5 = .ok (likedDB, "Already liked") ∧
    like_article likedDB "a1" "u1" "l3" 6 = .ok (likedDB, "Already liked") ∧
    (likedDB.articles.find? (fun b => b.id == "a1")).map (fun b => b.likes_count)
      = some 1 ∧
    ¬ ((1 : Int) = 1 + 1) :=
  ⟨rfl, rfl, rfl, by decide⟩

/-- C3: registration with a duplicate email or username fails with
Conflict (the 400 User already exists raise precedes the insert, so
nothing is stored); with both unique and a fresh uuid the registration
succeeds and its token, validated before expiry against the
post-registration store, resolves to the new user's id. -/
theorem register_spec (s : DB) (r : UserRegister) (newId : String) (now salt now2 : Nat) :
    ((∃ u ∈ s.users, u.email = r.email ∨ u.username = r.username) →
      register s r newId now salt = .error Conflict) ∧
    ((∀ u ∈ s.users, u.email ≠ r.email ∧ u.username ≠ r.username) →
      (∀ u ∈ s.users, u.id ≠ newId) →
      now2 < now + THIRTY_DAYS →
      ∃ s' resp, register s r newId now salt = .ok (s', resp) ∧
        resp.user.id = newId ∧
        ∃ u, get_current_user s' resp.token now2 = .ok u ∧
          u.id = newId ∧ u.username = r.username ∧ u.email = r.email) := by
  constructor
  · rintro ⟨u, hu, hdup⟩
    have hsome : (s.users.find? (fun v => v.email == r.email || v.username == r.username)).isSome := by
      rw [List.find?_isSome]
      refine ⟨u, hu, ?_⟩
      rcases hdup with h | h <;> simp [h]
    obtain ⟨v, hv⟩ := Option.isSome_iff_exists.mp hsome
    simp [register, hv]
  · intro huniq hfresh hnow
    have hnone : s.users.find? (fun v => v.email == r.email || v.username == r.username) = none := by
      rw [List.find?_eq_none]
      intro v hv
      obtain ⟨he, hn⟩ := huniq v hv
      simp only [Bool.or_eq_true, beq_iff_eq]
      rintro (h | h)
      · exact he h
      · exact hn h
    set newUser : StoredUser := ⟨newId, r.username, r.email, some "", some "", now, hash_password r.password salt⟩ with hnu
    refine ⟨{ s with users := s.users ++ [newUser] }, ⟨create_access_token newId now, ⟨newId, r.username, r.email, "", ""⟩⟩, ?_, rfl, newUser, ?_, rfl, rfl, rfl⟩
    · simp [register, hnone, hnu]
    · have hdec : jwtDecode (create_access_token newId now) SECRET_KEY now2
          = Except.ok ⟨some newId, now + THIRTY_DAYS⟩ := by
        simp [jwtDecode, create_access_token, jwtEncode, Nat.not_le.mpr hnow]
      have hfind : (s.users ++ [newUser]).find? (fun u => u.id == newId) = some newUser := by
        rw [List.find?_append]
        have h1 : s.users.find? (fun u => u.id == newId) = none := by
          rw [List.find?_eq_none]
          intro v hv
          simpa using hfresh v hv
        rw [h1]
        simp [hnu]
      simp [get_current_user, hdec, hfind]

theorem register_spec_witness :
    ∃ s' resp, register emptyDB ⟨"alice", "alice@x.example", "pw"⟩ "u1" 0 0 = .ok (s', resp) ∧
      resp.user.id = "u1" ∧
      ∃ u, get_current_user s' resp.token 10 = .ok u ∧
        u.id = "u1" ∧ u.username = "alice" ∧ u.email = "alice@x.example" :=
  (register_spec emptyDB ⟨"alice", "alice@x.example", "pw"⟩ "u1" 0 0 10).2
    (by simp [emptyDB]) (by simp [emptyDB]) (by decide)

/-- Two stored users that agree on everything except possibly the
password hash. -/
def SameExceptHash (u v : StoredUser) : Prop :=
  u.id = v.id ∧ u.username = v.username ∧ u.email = v.email ∧
  u.bio = v.bio ∧ u.avatar = v.avatar ∧ u.created_at = v.created_at

/-- Two DB states that differ only in stored password_hash values. -/
def RelatedDB (s s' : DB) : Prop :=
  List.Forall₂ SameExceptHash s.users s'.users ∧
  s.articles = s'.articles ∧ s.comments = s'.comments ∧ s.likes = s'.likes

theorem public_eq {u v : StoredUser} (h : SameExceptHash u v) :
    u.public = v.public := by
  obtain ⟨h1, h2, h3, h4, h5, h6⟩ := h
  simp [StoredUser.public, h1, h2, h3, h4, h5, h6]

/-- find? transfers along Forall₂ when the related elements agree on
the predicate. -/
theorem find?_forall₂ {α β : Type} (R : α → β → Prop) (p : α → Bool) (q : β → Bool)
    (hpq : ∀ x y, R x y → p x = q y) :
    ∀ {l : List α} {l' : List β}, List.Forall₂ R l l' →
      (l.find? p = none ∧ l'.find? q = none) ∨
      (∃ x y, R x y ∧ l.find? p = some x ∧ l'.find? q = some y) := by
  intro l l' h
  induction h with
  | nil => exact Or.inl ⟨rfl, rfl⟩
  | @cons x y l₁ l₂ hxy htail ih =>
    by_cases hx : p x = true
    · refine Or.inr ⟨x, y, hxy, List.find?_cons_of_pos _ hx, List.find?_cons_of_pos _ ?_⟩
      rw [← hpq x y hxy]
      exact hx
    · have hy : ¬ q y = true := by
        rw [← hpq x y hxy]
        exact hx
      rw [List.find?_cons_of_neg _ hx, List.find?_cons_of_neg _ hy]
      exact ih

/-- C7: on DB states differing only in password hashes, the outputs of
get_me and get_user_profile are identical, register produces identical
responses, and whenever login succeeds in both states it returns
identical responses: no read path ever includes the password hash. -/
theorem no_password_leak (s s' : DB) (hrel : RelatedDB s s') :
    (∀ u v, SameExceptHash u v → get_me u = get_me v) ∧
    (∀ username, get_user_profile s username = get_user_profile s' username) ∧
    (∀ r newId now salt,
      (register s r newId now salt).map (fun x => x.2)
        = (register s' r newId now salt).map (fun x => x.2)) ∧
    (∀ c now r1 r2, login s c now = .ok r1 → login s' c now = .ok r2 → r1 = r2) := by
  obtain ⟨husers, hart, hcom, hlik⟩ := hrel
  refine ⟨?_, ?_, ?_, ?_⟩
  · intro u v h
    obtain ⟨h1, h2, h3, h4, h5, h6⟩ := h
    simp [get_me, h1, h2, h3, h4, h5]
  · intro username
    have htr := find?_forall₂ SameExceptHash (fun u => u.username == username)
      (fun u => u.username == username)
      (fun x y hxy => by simp only [hxy.2.1]) husers
    rcases htr with ⟨h1, h2⟩ | ⟨x, y, hxy, h1, h2⟩
    · simp [get_user_profile, h1, h2]
    · simp [get_user_profile, h1, h2, public_eq hxy, profile_articles, hart]
  · intro r newId now salt
    have htr := find?_forall₂ SameExceptHash (fun u => u.email == r.email || u.username == r.username)
      (fun u => u.email == r.email || u.username == r.username)
      (fun x y hxy => by simp only [hxy.2.1, hxy.2.2.1]) husers
    rcases htr with ⟨h1, h2⟩ | ⟨x, y, hxy, h1, h2⟩
    · simp [register, h1, h2, Except.map]
    · simp [register, h1, h2, Except.map]
  · intro c now r1 r2 hl1 hl2
    have htr := find?_forall₂ SameExceptHash (fun u => u.email == c.email)
      (fun u => u.email == c.email)
      (fun x y hxy => by simp only [hxy.2.2.1]) husers
    rcases htr with ⟨h1, h2⟩ | ⟨x, y, hxy, h1, h2⟩
    · rw [login, h1] at hl1
      cases hl1
    · simp only [login, h1] at hl1
      simp only [login, h2] at hl2
      by_cases hv1 : verify_password c.password x.password_hash = true
      · rw [if_pos hv1] at hl1
        by_cases hv2 : verify_password c.password y.password_hash = true
        · rw [if_pos hv2] at hl2
          cases hl1
          cases hl2
          obtain ⟨e1, e2, e3, e4, e5, e6⟩ := hxy
          simp [e1, e2, e3, e4, e5]
        · rw [if_neg hv2] at hl2
          cases hl2
      · rw [if_neg hv1] at hl1
        cases hl1

/-- Fixtures for the C7 witness: the same single user stored with two
different password hashes. -/
def exU1 : StoredUser := ⟨"u1", "alice", "alice@x.example", some "bi", some "av", 3, ⟨0, "pw1"⟩⟩

def exU2 : StoredUser := ⟨"u1", "alice", "alice@x.example", some "bi", some "av", 3, ⟨5, "pw2"⟩⟩

def dbH1 : DB := ⟨[exU1], [], [], []⟩

def dbH2 : DB := ⟨[exU2], [], [], []⟩

theorem no_password_leak_witness :
    get_user_profile dbH1 "alice" = get_user_profile dbH2 "alice" :=
  (no_password_leak dbH1 dbH2
    ⟨List.Forall₂.cons ⟨rfl, rfl, rfl, rfl, rfl, rfl⟩ List.Forall₂.nil, rfl, rfl, rfl⟩).2.1
    "alice"

/-- C9 (amended): for a non-empty tag X, get_articles returns the
articles whose tags contain X sorted newest-created-first, truncated by
to_list(1000) to the first 1000; when at most 1000 articles match, the
result is exactly the sorted matching set. -/
theorem get_articles_by_tag (s : DB) (X : String) (hX : X ≠ "") :
    ∃ l, List.Perm (s.articles.filter (fun a => a.tags.contains X)) l ∧
      List.Sorted newerFirstA l ∧
      get_articles s (some X) none = l.take 1000 ∧
      ((s.articles.filter (fun a => a.tags.contains X)).length ≤ 1000 →
        get_articles s (some X) none = l) := by
  have hfil : s.articles.filter (articleMatches (some X) none)
      = s.articles.filter (fun a => a.tags.contains X) := by
    apply List.filter_congr
    intro a ha
    simp [articleMatches, hX]
  refine ⟨List.insertionSort newerFirstA (s.articles.filter (fun a => a.tags.contains X)), ?_, ?_, ?_, ?_⟩
  · exact (List.perm_insertionSort _ _).symm
  · exact List.sorted_insertionSort _ _
  · rw [get_articles, hfil]
  · intro hlen
    rw [get_articles, hfil]
    apply List.take_of_length_le
    rw [List.length_insertionSort]
    exact hlen

theorem get_articles_by_tag_witness :
    ∃ l, List.Perm (exDB.articles.filter (fun a => a.tags.contains "x")) l ∧
      List.Sorted newerFirstA l ∧
      get_articles exDB (some "x") none = l.take 1000 ∧
      ((exDB.articles.filter (fun a => a.tags.contains "x")).length ≤ 1000 →
        get_articles exDB (some "x") none = l) :=
  get_articles_by_tag exDB "x" (by decide)

/-- Fixture for the C9 counterexample: 1001 articles all carrying the
tag "x". -/
def mkArt (n : Nat) : StoredArticle :=
  ⟨toString n, "u1", "alice", "t", "c", ["x"], "", 0, 0, n, n⟩

def bigDB : DB := ⟨[], (List.range 1001).map mkArt, [], []⟩

set_option maxRecDepth 4000 in
/-- C9 counterexample: with 1001 stored articles tagged "x",
get_articles with tag "x" does not return the set of all matching
articles (it is not even a permutation of it): to_list(1000) drops one. -/
theorem get_articles_by_tag_counterexample :
    ¬ List.Perm (get_articles bigDB (some "x") none)
        (bigDB.articles.filter (fun a => a.tags.contains "x")) := by
  intro hperm
  have hfull : bigDB.articles.filter (fun a => a.tags.contains "x") = bigDB.articles := by
    apply List.filter_eq_self.mpr
    intro a ha
    simp only [bigDB, List.mem_map] at ha
    obtain ⟨n, _, rfl⟩ := ha
    simp [mkArt]
  have hlen2 : (bigDB.articles.filter (fun a => a.tags.contains "x")).length = 1001 := by
    rw [hfull]
    simp [bigDB]
  have hfull2 : bigDB.articles.filter (articleMatches (some "x") none) = bigDB.articles := by
    apply List.filter_eq_self.mpr
    intro a ha
    simp only [bigDB, List.mem_map] at ha
    obtain ⟨n, _, rfl⟩ := ha
    simp [articleMatches, mkArt]
  have hlen1 : (get_articles bigDB (some "x") none).length = 1000 := by
    rw [get_articles, List.length_take, List.length_insertionSort, hfull2]
    simp [bigDB]
  rw [hperm.length_eq, hlen2] at hlen1
  exact absurd hlen1 (by decide)

/-- C10: every list endpoint truncates: get_articles returns at most
1000 articles, get_comments at most 1000 comments, and the articles
list of get_user_profile (computed by profile_articles) holds at most
100 articles, whatever the stored state. -/
theorem list_endpoints_truncate (s : DB) (tag author : Option String)
    (article_id username : String) :
    (get_articles s tag author).length ≤ 1000 ∧
    (get_comments s article_id).length ≤ 1000 ∧
    (profile_articles s username).length ≤ 100 ∧
    (∀ resp, get_user_profile s username = .ok resp → resp.articles.length ≤ 100) := by
  have hart : (get_articles s tag author).length ≤ 1000 := by
    rw [get_articles, List.length_take]
    exact Nat.min_le_left _ _
  have hcom : (get_comments s article_id).length ≤ 1000 := by
    rw [get_comments, List.length_take]
    exact Nat.min_le_left _ _
  have hprof : (profile_articles s username).length ≤ 100 := by
    rw [profile_articles, List.length_take]
    exact Nat.min_le_left _ _
  refine ⟨hart, hcom, hprof, ?_⟩
  intro resp h
  rw [get_user_profile] at h
  cases hfind : s.users.find? (fun u => u.username == username) with
  | none =>
    rw [hfind] at h
    cases h
  | some u =>
    rw [hfind] at h
    cases h
    exact hprof

theorem list_endpoints_truncate_witness :
    (get_articles dbH1 none none).length ≤ 1000 ∧
    (get_comments dbH1 "a1").length ≤ 1000 ∧
    (profile_articles dbH1 "alice").length ≤ 100 ∧
    (⟨exU1.public, profile_articles dbH1 "alice"⟩ : ProfileResponse).articles.length ≤ 100 := by
  obtain ⟨h1, h2, h3, h4⟩ := list_endpoints_truncate dbH1 none none "a1" "alice"
  exact ⟨h1, h2, h3, h4 ⟨exU1.public, profile_articles dbH1 "alice"⟩ rfl⟩

/-- The ids of the stored articles, in order. -/
def articleIds (s : DB) : List String :=
  s.articles.map (fun a => a.id)

/-- The claim's invariant: every stored article's denormalized counters
equal the number of Like/Comment records referencing its id. -/
def countersOK (s : DB) : Prop :=
  ∀ a ∈ s.articles,
    a.likes_count = (s.likes.countP (fun l => l.article_id == a.id) : Int) ∧
    a.comments_count = (s.comments.countP (fun c => c.article_id == a.id) : Int)

/-- Auxiliary invariant: every like and comment references a stored
article (maintained because both are only created on an existing
article and cascade-deleted with it). -/
def refsOK (s : DB) : Prop :=
  (∀ l ∈ s.likes, l.article_id ∈ articleIds s) ∧
  (∀ c ∈ s.comments, c.article_id ∈ articleIds s)

/-- Inductive invariant: distinct article ids (uuid4-generated),
referential integrity, and correct counters. -/
def DBInv (s : DB) : Prop :=
  (articleIds s).Nodup ∧ refsOK s ∧ countersOK s

/-- One successful mutating request, as executed by the handlers.  The
uuid4 freshness of a created article's id is a hypothesis of the
create step; the failing requests raise before writing and do not
change the state. -/
inductive Step : DB → DB → Prop where
  | createArticle {s : DB} (uid uname : String) (d : ArticleCreate) (aid : String)
      (now : Nat) (hfresh : ∀ a ∈ s.articles, a.id ≠ aid) :
      Step s (create_article s uid uname d aid now).1
  | updateArticle {s s' : DB} (article_id : String) (patch : ArticleUpdate)
      (uid : String) (now : Nat) (ret : StoredArticle)
      (h : update_article s article_id patch uid now = .ok (s', ret)) : Step s s'
  | deleteArticle {s s' : DB} (article_id uid : String)
      (h : delete_article s article_id uid = .ok s') : Step s s'
  | like {s s' : DB} (article_id uid likeId : String) (now : Nat) (msg : String)
      (h : like_article s article_id uid likeId now = .ok (s', msg)) : Step s s'
  | unlike {s s' : DB} (article_id uid : String) (msg : String)
      (h : unlike_article s article_id uid = .ok (s', msg)) : Step s s'
  | comment {s s' : DB} (article_id uid uname content cid : String) (now : Nat)
      (ret : StoredComment)
      (h : create_comment s article_id uid uname content cid now = .ok (s', ret)) :
      Step s s'

/-- States reachable from the empty store by the mutating requests. -/
def Reachable (s : DB) : Prop :=
  Relation.ReflTransGen Step emptyDB s

theorem countP_and_true {α : Type} (p q : α → Bool) :
    ∀ l : List α, (∀ x ∈ l, p x = true → q x = true) →
      l.countP (fun x => p x && q x) = l.countP p
  | [], _ => rfl
  | x :: l, h => by
    have hrec := countP_and_true p q l (fun y hy => h y (List.mem_cons_of_mem x hy))
    by_cases hx : p x = true
    · have hq := h x (List.mem_cons_self x l) hx
      simp [List.countP_cons, hx, hq, hrec]
    · simp [List.countP_cons, hx, hrec]

theorem mem_of_decomp {α : Type} (l₁ l₂ : List α) (a0 b : α) (hb : b ∈ l₁ ++ l₂) :
    b ∈ l₁ ++ a0 :: l₂ := by
  rcases List.mem_append.mp hb with h | h
  · exact List.mem_append_left _ h
  · exact List.mem_append_right _ (List.mem_cons_of_mem _ h)

/-- In a decomposition around the unique article with the looked-up id,
no other article carries that id. -/
theorem decomp_ids_ne (article_id : String) (l₁ l₂ : List StoredArticle)
    (a0 : StoredArticle)
    (hpre : ∀ b ∈ l₁, ¬ (b.id == article_id) = true)
    (ha0 : (a0.id == article_id) = true)
    (hnodup : ((l₁ ++ a0 :: l₂).map (fun a => a.id)).Nodup) :
    ∀ b ∈ l₁ ++ l₂, b.id ≠ article_id := by
  intro b hb he
  rcases List.mem_append.mp hb with h1 | h2
  · exact hpre b h1 (by simp [he])
  · have ha0' : a0.id = article_id := by simpa using ha0
    have hmem : a0.id ∈ l₂.map (fun a => a.id) := by
      rw [ha0', ← he]
      exact List.mem_map_of_mem _ h2
    rw [List.map_append, List.map_cons, List.nodup_append] at hnodup
    exact (List.nodup_cons.mp hnodup.2.1).1 hmem

theorem inv_like (s s' : DB) (article_id uid likeId : String) (now : Nat) (msg : String)
    (h : like_article s article_id uid likeId now = .ok (s', msg)) (hinv : DBInv s) :
    DBInv s' := by
  rw [like_article] at h
  cases hfa : s.articles.find? (fun a => a.id == article_id) with
  | none =>
    rw [hfa] at h
    cases h
  | some a0 =>
    rw [hfa] at h
    cases hfl : s.likes.find? (fun l => l.article_id == article_id && l.user_id == uid) with
    | some lk =>
      rw [hfl] at h
      cases h
      exact hinv
    | none =>
      rw [hfl] at h
      cases h
      obtain ⟨hnodup, ⟨hrefL, hrefC⟩, hcnt⟩ := hinv
      obtain ⟨l₁, l₂, hpre, hpa, hsplit⟩ := find?_eq_some_decomp hfa
      have ha0id : a0.id = article_id := by simpa using hpa
      have ha0mem : a0 ∈ s.articles := List.mem_of_find?_eq_some hfa
      have hids : (updateFirst (fun b => b.id == article_id) (fun b => { b with likes_count := b.likes_count + 1 }) s.articles).map (fun a => a.id) = s.articles.map (fun a => a.id) :=
        map_updateFirst (fun a => a.id) (fun b => b.id == article_id) (fun b => { b with likes_count := b.likes_count + 1 }) (fun a => rfl) s.articles
      have hupd : updateFirst (fun b => b.id == article_id) (fun b => { b with likes_count := b.likes_count + 1 }) s.articles = l₁ ++ { a0 with likes_count := a0.likes_count + 1 } :: l₂ := by
        rw [hsplit]
        exact updateFirst_append _ _ l₁ a0 l₂ hpre hpa
      have hne : ∀ b ∈ l₁ ++ l₂, b.id ≠ article_id := by
        apply decomp_ids_ne article_id l₁ l₂ a0 hpre hpa
        rw [← hsplit]
        exact hnodup
      refine ⟨?_, ⟨?_, ?_⟩, ?_⟩
      · show ((updateFirst _ _ s.articles).map (fun a => a.id)).Nodup
        rw [hids]
        exact hnodup
      · intro l hl
        show l.article_id ∈ (updateFirst _ _ s.articles).map (fun a => a.id)
        rw [hids]
        rcases List.mem_append.mp hl with hold | hnew
        · exact hrefL l hold
        · have : l = ⟨likeId, article_id, uid, now⟩ := by simpa using hnew
          subst this
          show article_id ∈ s.articles.map (fun a => a.id)
          rw [← ha0id]
          exact List.mem_map_of_mem _ ha0mem
      · intro c hc
        show c.article_id ∈ (updateFirst _ _ s.articles).map (fun a => a.id)
        rw [hids]
        exact hrefC c hc
      · intro b hb
        rw [hupd] at hb
        rcases List.mem_append.mp hb with hb1 | hb2
        · have hbne : b.id ≠ article_id := hne b (List.mem_append_left _ hb1)
          have hbmem : b ∈ s.articles := by
            rw [hsplit]
            exact mem_of_decomp l₁ l₂ a0 b (List.mem_append_left _ hb1)
          obtain ⟨hL, hC⟩ := hcnt b hbmem
          constructor
          · show b.likes_count = ((s.likes ++ [(⟨likeId, article_id, uid, now⟩ : StoredLike)]).countP (fun l => l.article_id == b.id) : Int)
            rw [List.countP_append]
            have : ([(⟨likeId, article_id, uid, now⟩ : StoredLike)].countP (fun l => l.article_id == b.id)) = 0 := by
              simp only [List.countP_cons, List.countP_nil]
              have : ¬ (article_id == b.id) = true := by
                simp only [beq_iff_eq]
                exact fun he => hbne he.symm
              simp [this]
            rw [this, Nat.add_zero]
            exact hL
          · exact hC
        · rcases List.mem_cons.mp hb2 with hbe | hb3
          · subst hbe
            obtain ⟨hL, hC⟩ := hcnt a0 ha0mem
            constructor
            · show a0.likes_count + 1 = ((s.likes ++ [(⟨likeId, article_id, uid, now⟩ : StoredLike)]).countP (fun l => l.article_id == a0.id) : Int)
              rw [List.countP_append]
              have hone : ([(⟨likeId, article_id, uid, now⟩ : StoredLike)].countP (fun l => l.article_id == a0.id)) = 1 := by
                simp [List.countP_cons, ha0id]
              rw [hone, hL]
              push_cast
              ring
            · exact hC
          · have hbne : b.id ≠ article_id := hne b (List.mem_append_right _ hb3)
            have hbmem : b ∈ s.articles := by
              rw [hsplit]
              exact mem_of_decomp l₁ l₂ a0 b (List.mem_append_right _ hb3)
            obtain ⟨hL, hC⟩ := hcnt b hbmem
            constructor
            · show b.likes_count = ((s.likes ++ [(⟨likeId, article_id, uid, now⟩ : StoredLike)]).countP (fun l => l.article_id == b.id) : Int)
              rw [List.countP_append]
              have : ([(⟨likeId, article_id, uid, now⟩ : StoredLike)].countP (fun l => l.article_id == b.id)) = 0 := by
                simp only [List.countP_cons, List.countP_nil]
                have : ¬ (article_id == b.id) = true := by
                  simp only [beq_iff_eq]
                  exact fun he => hbne he.symm
                simp [this]
              rw [this, Nat.add_zero]
              exact hL
            · exact hC

theorem inv_comment (s s' : DB) (article_id uid uname content cid : String) (now : Nat)
    (ret : StoredComment)
    (h : create_comment s article_id uid uname content cid now = .ok (s', ret))
    (hinv : DBInv s) : DBInv s' := by
  rw [create_comment] at h
  cases hfa : s.articles.find? (fun a => a.id == article_id) with
  | none =>
    rw [hfa] at h
    cases h
  | some a0 =>
    rw [hfa] at h
    cases h
    obtain ⟨hnodup, ⟨hrefL, hrefC⟩, hcnt⟩ := hinv
    obtain ⟨l₁, l₂, hpre, hpa, hsplit⟩ := find?_eq_some_decomp hfa
    have ha0id : a0.id = article_id := by simpa using hpa
    have ha0mem : a0 ∈ s.articles := List.mem_of_find?_eq_some hfa
    have hids : (updateFirst (fun b => b.id == article_id) (fun b => { b with comments_count := b.comments_count + 1 }) s.articles).map (fun a => a.id) = s.articles.map (fun a => a.id) :=
      map_updateFirst (fun a => a.id) (fun b => b.id == article_id) (fun b => { b with comments_count := b.comments_count + 1 }) (fun a => rfl) s.articles
    have hupd : updateFirst (fun b => b.id == article_id) (fun b => { b with comments_count := b.comments_count + 1 }) s.articles = l₁ ++ { a0 with comments_count := a0.comments_count + 1 } :: l₂ := by
      rw [hsplit]
      exact updateFirst_append _ _ l₁ a0 l₂ hpre hpa
    have hne : ∀ b ∈ l₁ ++ l₂, b.id ≠ article_id := by
      apply decomp_ids_ne article_id l₁ l₂ a0 hpre hpa
      rw [← hsplit]
      exact hnodup
    refine ⟨?_, ⟨?_, ?_⟩, ?_⟩
    · show ((updateFirst _ _ s.articles).map (fun a => a.id)).Nodup
      rw [hids]
      exact hnodup
    · intro l hl
      show l.article_id ∈ (updateFirst _ _ s.articles).map (fun a => a.id)
      rw [hids]
      exact hrefL l hl
    · intro c hc
      show c.article_id ∈ (updateFirst _ _ s.articles).map (fun a => a.id)
      rw [hids]
      rcases List.mem_append.mp hc with hold | hnew
      · exact hrefC c hold
      · have : c = ⟨cid, article_id, uid, uname, content, now⟩ := by simpa using hnew
        subst this
        show article_id ∈ s.articles.map (fun a => a.id)
        rw [← ha0id]
        exact List.mem_map_of_mem _ ha0mem
    · intro b hb
      rw [hupd] at hb
      have hother : ∀ b', b' ∈ l₁ ++ l₂ →
          b'.likes_count = (s.likes.countP (fun l => l.article_id == b'.id) : Int) ∧
          b'.comments_count = ((s.comments ++ [(⟨cid, article_id, uid, uname, content, now⟩ : StoredComment)]).countP (fun c => c.article_id == b'.id) : Int) := by
        intro b' hb'
        have hbne : b'.id ≠ article_id := hne b' hb'
        have hbmem : b' ∈ s.articles := by
          rw [hsplit]
          exact mem_of_decomp l₁ l₂ a0 b' hb'
        obtain ⟨hL, hC⟩ := hcnt b' hbmem
        refine ⟨hL, ?_⟩
        rw [List.countP_append]
        have hz : ([(⟨cid, article_id, uid, uname, content, now⟩ : StoredComment)].countP (fun c => c.article_id == b'.id)) = 0 := by
          simp only [List.countP_cons, List.countP_nil]
          have : ¬ (article_id == b'.id) = true := by
            simp only [beq_iff_eq]
            exact fun he => hbne he.symm
          simp [this]
        rw [hz, Nat.add_zero]
        exact hC
      rcases List.mem_append.mp hb with hb1 | hb2
      · exact hother b (List.mem_append_left _ hb1)
      · rcases List.mem_cons.mp hb2 with hbe | hb3
        · subst hbe
          obtain ⟨hL, hC⟩ := hcnt a0 ha0mem
          refine ⟨hL, ?_⟩
          show a0.comments_count + 1 = ((s.comments ++ [(⟨cid, article_id, uid, uname, content, now⟩ : StoredComment)]).countP (fun c => c.article_id == a0.id) : Int)
          rw [List.countP_append]
          have hone : ([(⟨cid, article_id, uid, uname, content, now⟩ : StoredComment)].countP (fun c => c.article_id == a0.id)) = 1 := by
            simp [List.countP_cons, ha0id]
          rw [hone, hC]
          push_cast
          ring
        · exact hother b (List.mem_append_right _ hb3)

theorem inv_unlike (s s' : DB) (article_id uid : String) (msg : String)
    (h : unlike_article s article_id uid = .ok (s', msg)) (hinv : DBInv s) :
    DBInv s' := by
  rw [unlike_article] at h
  cases hfl : s.likes.find? (fun l => l.article_id == article_id && l.user_id == uid) with
  | none =>
    rw [hfl] at h
    simp at h
  | some lk =>
    rw [hfl] at h
    simp only [Option.isSome_some, if_true] at h
    cases h
    obtain ⟨hnodup, ⟨hrefL, hrefC⟩, hcnt⟩ := hinv
    have hqlk := List.find?_some hfl
    have hlkmem : lk ∈ s.likes := List.mem_of_find?_eq_some hfl
    have hlkid : lk.article_id = article_id := by
      simp only [Bool.and_eq_true, beq_iff_eq] at hqlk
      exact hqlk.1
    have hidmem : article_id ∈ s.articles.map (fun a => a.id) := by
      rw [← hlkid]
      exact hrefL lk hlkmem
    obtain ⟨a1, ha1mem, ha1id⟩ := List.mem_map.mp hidmem
    have hfasome : (s.articles.find? (fun b => b.id == article_id)).isSome := by
      rw [List.find?_isSome]
      exact ⟨a1, ha1mem, by simp [ha1id]⟩
    obtain ⟨a0, hfa⟩ := Option.isSome_iff_exists.mp hfasome
    obtain ⟨l₁, l₂, hpre, hpa, hsplit⟩ := find?_eq_some_decomp hfa
    have ha0id : a0.id = article_id := by simpa using hpa
    have ha0mem : a0 ∈ s.articles := List.mem_of_find?_eq_some hfa
    obtain ⟨c, m₁, m₂, hm₁, hpc, hleq, herase⟩ :=
      List.exists_of_eraseP hlkmem (List.find?_some hfl)
    have hcid : c.article_id = article_id := by
      simp only [Bool.and_eq_true, beq_iff_eq] at hpc
      exact hpc.1
    have hids : (updateFirst (fun b => b.id == article_id) (fun b => { b with likes_count := b.likes_count - 1 }) s.articles).map (fun a => a.id) = s.articles.map (fun a => a.id) :=
      map_updateFirst (fun a => a.id) (fun b => b.id == article_id) (fun b => { b with likes_count := b.likes_count - 1 }) (fun a => rfl) s.articles
    have hupd : updateFirst (fun b => b.id == article_id) (fun b => { b with likes_count := b.likes_count - 1 }) s.articles = l₁ ++ { a0 with likes_count := a0.likes_count - 1 } :: l₂ := by
      rw [hsplit]
      exact updateFirst_append _ _ l₁ a0 l₂ hpre hpa
    have hne : ∀ b ∈ l₁ ++ l₂, b.id ≠ article_id := by
      apply decomp_ids_ne article_id l₁ l₂ a0 hpre hpa
      rw [← hsplit]
      exact hnodup
    refine ⟨?_, ⟨?_, ?_⟩, ?_⟩
    · show ((updateFirst _ _ s.articles).map (fun a => a.id)).Nodup
      rw [hids]
      exact hnodup
    · intro l hl
      show l.article_id ∈ (updateFirst _ _ s.articles).map (fun a => a.id)
      rw [hids]
      have : l ∈ s.likes := by
        rw [herase] at hl
        rw [hleq]
        exact mem_of_decomp m₁ m₂ c l hl
      exact hrefL l this
    · intro cc hcc
      show cc.article_id ∈ (updateFirst _ _ s.articles).map (fun a => a.id)
      rw [hids]
      exact hrefC cc hcc
    · intro b hb
      rw [hupd] at hb
      have hcnt_split : s.likes.countP (fun l => l.article_id == a0.id)
          = (m₁ ++ m₂).countP (fun l => l.article_id == a0.id) + 1 := by
        rw [hleq, List.countP_append, List.countP_append, List.countP_cons]
        have : (c.article_id == a0.id) = true := by
          simp [hcid, ha0id]
        simp [this]
        ring
      have hother : ∀ b', b' ∈ l₁ ++ l₂ →
          b'.likes_count = ((s.likes.eraseP (fun l => l.article_id == article_id && l.user_id == uid)).countP (fun l => l.article_id == b'.id) : Int) ∧
          b'.comments_count = (s.comments.countP (fun cc => cc.article_id == b'.id) : Int) := by
        intro b' hb'
        have hbne : b'.id ≠ article_id := hne b' hb'
        have hbmem : b' ∈ s.articles := by
          rw [hsplit]
          exact mem_of_decomp l₁ l₂ a0 b' hb'
        obtain ⟨hL, hC⟩ := hcnt b' hbmem
        refine ⟨?_, hC⟩
        rw [herase]
        have hsame : (m₁ ++ m₂).countP (fun l => l.article_id == b'.id)
            = s.likes.countP (fun l => l.article_id == b'.id) := by
          rw [hleq, List.countP_append, List.countP_append, List.countP_cons]
          have : ¬ (c.article_id == b'.id) = true := by
            simp only [beq_iff_eq, hcid]
            exact fun he => hbne he.symm
          simp [this]
        rw [hsame]
        exact hL
      rcases List.mem_append.mp hb with hb1 | hb2
      · exact hother b (List.mem_append_left _ hb1)
      · rcases List.mem_cons.mp hb2 with hbe | hb3
        · subst hbe
          obtain ⟨hL, hC⟩ := hcnt a0 ha0mem
          refine ⟨?_, hC⟩
          show a0.likes_count - 1 = ((s.likes.eraseP (fun l => l.article_id == article_id && l.user_id == uid)).countP (fun l => l.article_id == a0.id) : Int)
          rw [herase]
          rw [hcnt_split] at hL
          rw [hL]
          push_cast
          ring
        · exact hother b (List.mem_append_right _ hb3)

theorem inv_create (s : DB) (uid uname : String) (d : ArticleCreate) (aid : String)
    (now : Nat) (hfresh : ∀ a ∈ s.articles, a.id ≠ aid) (hinv : DBInv s) :
    DBInv (create_article s uid uname d aid now).1 := by
  obtain ⟨hnodup, ⟨hrefL, hrefC⟩, hcnt⟩ := hinv
  simp only [create_article]
  refine ⟨?_, ⟨?_, ?_⟩, ?_⟩
  · show ((s.articles ++ [(⟨aid, uid, uname, d.title, d.content, d.tags, d.cover_image, 0, 0, now, now⟩ : StoredArticle)]).map (fun a => a.id)).Nodup
    rw [List.map_append, List.nodup_append]
    refine ⟨hnodup, by simp, ?_⟩
    intro x hx hy
    simp only [List.map_cons, List.map_nil, List.mem_singleton] at hy
    obtain ⟨a, hamem, haid⟩ := List.mem_map.mp hx
    exact hfresh a hamem (haid.trans hy)
  · intro l hl
    show l.article_id ∈ (s.articles ++ [(⟨aid, uid, uname, d.title, d.content, d.tags, d.cover_image, 0, 0, now, now⟩ : StoredArticle)]).map (fun a => a.id)
    rw [List.map_append]
    exact List.mem_append_left _ (hrefL l hl)
  · intro c hc
    show c.article_id ∈ (s.articles ++ [(⟨aid, uid, uname, d.title, d.content, d.tags, d.cover_image, 0, 0, now, now⟩ : StoredArticle)]).map (fun a => a.id)
    rw [List.map_append]
    exact List.mem_append_left _ (hrefC c hc)
  · intro b hb
    rcases List.mem_append.mp hb with hold | hnew
    · exact hcnt b hold
    · have hbe : b = ⟨aid, uid, uname, d.title, d.content, d.tags, d.cover_image, 0, 0, now, now⟩ := by
        simpa using hnew
      subst hbe
      constructor
      · show (0 : Int) = (s.likes.countP (fun l => l.article_id == aid) : Int)
        have : s.likes.countP (fun l => l.article_id == aid) = 0 := by
          rw [List.countP_eq_zero]
          intro l hl
          simp only [beq_iff_eq]
          intro he
          have := hrefL l hl
          rw [he] at this
          obtain ⟨a, hamem, haid⟩ := List.mem_map.mp this
          exact hfresh a hamem haid
        rw [this]
        simp
      · show (0 : Int) = (s.comments.countP (fun c => c.article_id == aid) : Int)
        have : s.comments.countP (fun c => c.article_id == aid) = 0 := by
          rw [List.countP_eq_zero]
          intro c hc
          simp only [beq_iff_eq]
          intro he
          have := hrefC c hc
          rw [he] at this
          obtain ⟨a, hamem, haid⟩ := List.mem_map.mp this
          exact hfresh a hamem haid
        rw [this]
        simp

theorem inv_update (s s' : DB) (article_id : String) (patch : ArticleUpdate)
    (uid : String) (now : Nat) (ret : StoredArticle)
    (h : update_article s article_id patch uid now = .ok (s', ret)) (hinv : DBInv s) :
    DBInv s' := by
  simp only [update_article] at h
  cases hfa : s.articles.find? (fun a => a.id == article_id) with
  | none =>
    rw [hfa] at h
    cases h
  | some a0 =>
    rw [hfa] at h
    dsimp only at h
    by_cases hauth : a0.author_id ≠ uid
    · rw [if_pos hauth] at h
      cases h
    · rw [if_neg hauth] at h
      cases hre : (updateFirst (fun b => b.id == article_id) (fun b => applyPatch b patch now) s.articles).find? (fun b => b.id == article_id) with
      | none =>
        rw [hre] at h
        cases h
      | some u =>
        rw [hre] at h
        cases h
        obtain ⟨hnodup, ⟨hrefL, hrefC⟩, hcnt⟩ := hinv
        obtain ⟨l₁, l₂, hpre, hpa, hsplit⟩ := find?_eq_some_decomp hfa
        have ha0mem : a0 ∈ s.articles := List.mem_of_find?_eq_some hfa
        have hids : (updateFirst (fun b => b.id == article_id) (fun b => applyPatch b patch now) s.articles).map (fun a => a.id) = s.articles.map (fun a => a.id) :=
          map_updateFirst (fun a : StoredArticle => a.id) (fun b => b.id == article_id) (fun b => applyPatch b patch now) (fun a => rfl) s.articles
        have hupd : updateFirst (fun b => b.id == article_id) (fun b => applyPatch b patch now) s.articles = l₁ ++ applyPatch a0 patch now :: l₂ := by
          rw [hsplit]
          exact updateFirst_append _ _ l₁ a0 l₂ hpre hpa
        refine ⟨?_, ⟨?_, ?_⟩, ?_⟩
        · show ((updateFirst _ _ s.articles).map (fun a => a.id)).Nodup
          rw [hids]
          exact hnodup
        · intro l hl
          show l.article_id ∈ (updateFirst _ _ s.articles).map (fun a => a.id)
          rw [hids]
          exact hrefL l hl
        · intro c hc
          show c.article_id ∈ (updateFirst _ _ s.articles).map (fun a => a.id)
          rw [hids]
          exact hrefC c hc
        · intro b hb
          rw [hupd] at hb
          rcases List.mem_append.mp hb with hb1 | hb2
          · exact hcnt b (by rw [hsplit]; exact mem_of_decomp l₁ l₂ a0 b (List.mem_append_left _ hb1))
          · rcases List.mem_cons.mp hb2 with hbe | hb3
            · subst hbe
              obtain ⟨hL, hC⟩ := hcnt a0 ha0mem
              exact ⟨hL, hC⟩
            · exact hcnt b (by rw [hsplit]; exact mem_of_decomp l₁ l₂ a0 b (List.mem_append_right _ hb3))

theorem inv_delete (s s' : DB) (article_id uid : String)
    (h : delete_article s article_id uid = .ok s') (hinv : DBInv s) : DBInv s' := by
  rw [delete_article] at h
  cases hfa : s.articles.find? (fun a => a.id == article_id) with
  | none =>
    rw [hfa] at h
    cases h
  | some a0 =>
    rw [hfa] at h
    dsimp only at h
    by_cases hauth : a0.author_id ≠ uid
    · rw [if_pos hauth] at h
      cases h
    · rw [if_neg hauth] at h
      cases h
      obtain ⟨hnodup, ⟨hrefL, hrefC⟩, hcnt⟩ := hinv
      obtain ⟨l₁, l₂, hpre, hpa, hsplit⟩ := find?_eq_some_decomp hfa
      have ha0id : a0.id = article_id := by simpa using hpa
      have herase : s.articles.eraseP (fun b => b.id == article_id) = l₁ ++ l₂ := by
        rw [hsplit, List.eraseP_append_right _ hpre]
        congr 1
        exact List.eraseP_cons_of_pos hpa
      have hne : ∀ b ∈ l₁ ++ l₂, b.id ≠ article_id := by
        apply decomp_ids_ne article_id l₁ l₂ a0 hpre hpa
        rw [← hsplit]
        exact hnodup
      have hnodup2 : ((l₁ ++ l₂).map (fun a => a.id)).Nodup := by
        have hn : (s.articles.map (fun a => a.id)).Nodup := hnodup
        rw [hsplit, List.map_append, List.map_cons, List.nodup_append] at hn
        obtain ⟨h1, h2, hdisj⟩ := hn
        rw [List.nodup_cons] at h2
        rw [List.map_append, List.nodup_append]
        exact ⟨h1, h2.2, fun x hx hy => hdisj hx (List.mem_cons_of_mem _ hy)⟩
      refine ⟨?_, ⟨?_, ?_⟩, ?_⟩
      · show ((s.articles.eraseP (fun b => b.id == article_id)).map (fun a => a.id)).Nodup
        rw [herase]
        exact hnodup2
      · intro l hl
        obtain ⟨hlmem, hlkeep⟩ := List.mem_filter.mp hl
        have hlne : l.article_id ≠ article_id := by
          simpa using hlkeep
        show l.article_id ∈ (s.articles.eraseP (fun b => b.id == article_id)).map (fun a => a.id)
        rw [herase]
        have hthis : l.article_id ∈ s.articles.map (fun a => a.id) := hrefL l hlmem
        rw [hsplit, List.map_append, List.map_cons] at hthis
        rw [List.map_append]
        rcases List.mem_append.mp hthis with h1 | h2
        · exact List.mem_append_left _ h1
        · rcases List.mem_cons.mp h2 with he | h3
          · exact absurd (he.trans ha0id) hlne
          · exact List.mem_append_right _ h3
      · intro c hc
        obtain ⟨hcmem, hckeep⟩ := List.mem_filter.mp hc
        have hcne : c.article_id ≠ article_id := by
          simpa using hckeep
        show c.article_id ∈ (s.articles.eraseP (fun b => b.id == article_id)).map (fun a => a.id)
        rw [herase]
        have hthis : c.article_id ∈ s.articles.map (fun a => a.id) := hrefC c hcmem
        rw [hsplit, List.map_append, List.map_cons] at hthis
        rw [List.map_append]
        rcases List.mem_append.mp hthis with h1 | h2
        · exact List.mem_append_left _ h1
        · rcases List.mem_cons.mp h2 with he | h3
          · exact absurd (he.trans ha0id) hcne
          · exact List.mem_append_right _ h3
      · intro b hb
        rw [herase] at hb
        have hbne : b.id ≠ article_id := hne b hb
        have hbmem : b ∈ s.articles := by
          rw [hsplit]
          exact mem_of_decomp l₁ l₂ a0 b hb
        obtain ⟨hL, hC⟩ := hcnt b hbmem
        constructor
        · show b.likes_count = ((s.likes.filter (fun l => !(l.article_id == article_id))).countP (fun l => l.article_id == b.id) : Int)
          rw [List.countP_filter]
          rw [countP_and_true _ _ s.likes]
          · exact hL
          · intro x _ hx
            simp only [beq_iff_eq] at hx
            simp only [Bool.not_eq_true', beq_eq_false_iff_ne]
            rw [hx]
            exact hbne
        · show b.comments_count = ((s.comments.filter (fun c => !(c.article_id == article_id))).countP (fun c => c.article_id == b.id) : Int)
          rw [List.countP_filter]
          rw [countP_and_true _ _ s.comments]
          · exact hC
          · intro x _ hx
            simp only [beq_iff_eq] at hx
            simp only [Bool.not_eq_true', beq_eq_false_iff_ne]
            rw [hx]
            exact hbne

theorem step_inv {s s' : DB} (hstep : Step s s') (hinv : DBInv s) : DBInv s' := by
  cases hstep with
  | createArticle uid uname d aid now hfresh =>
    exact inv_create s uid uname d aid now hfresh hinv
  | updateArticle article_id patch uid now ret h =>
    exact inv_update s s' article_id patch uid now ret h hinv
  | deleteArticle article_id uid h =>
    exact inv_delete s s' article_id uid h hinv
  | like article_id uid likeId now msg h =>
    exact inv_like s s' article_id uid likeId now msg h hinv
  | unlike article_id uid msg h =>
    exact inv_unlike s s' article_id uid msg h hinv
  | comment article_id uid uname content cid now ret h =>
    exact inv_comment s s' article_id uid uname content cid now ret h hinv

theorem inv_empty : DBInv emptyDB := by
  refine ⟨?_, ⟨?_, ?_⟩, ?_⟩
  · simp [articleIds, emptyDB]
  · intro l hl
    simp [emptyDB] at hl
  · intro c hc
    simp [emptyDB] at hc
  · intro a ha
    simp [emptyDB] at ha

theorem reachable_inv {s : DB} (h : Reachable s) : DBInv s := by
  induction h with
  | refl => exact inv_empty
  | tail hab hbc ih => exact step_inv hbc ih

/-- C6: in every state reachable from the empty store by sequentially
executing the mutating operations (article create with a fresh uuid,
article update and delete, like, unlike, comment create), every stored
article's likes_count equals the number of Like records whose
article_id references it, and its comments_count equals the number of
Comment records referencing it. -/
theorem counter_invariant (s : DB) (h : Reachable s) :
    ∀ a ∈ s.articles,
      a.likes_count = (s.likes.countP (fun l => l.article_id == a.id) : Int) ∧
      a.comments_count = (s.comments.countP (fun c => c.article_id == a.id) : Int) :=
  (reachable_inv h).2.2

/-- Fixtures for the C6 witness: create an article in the empty store,
then like it. -/
def witDB1 : DB := (create_article emptyDB "u1" "alice" ⟨"t", "c", ["x"], ""⟩ "a1" 0).1

def witArt2 : StoredArticle := ⟨"a1", "u1", "alice", "t", "c", ["x"], "", 1, 0, 0, 0⟩

def witDB2 : DB := ⟨[], [witArt2], [], [⟨"l1", "a1", "u1", 1⟩]⟩

theorem counter_invariant_witness :
    witArt2.likes_count = (witDB2.likes.countP (fun l => l.article_id == witArt2.id) : Int) ∧
    witArt2.comments_count = (witDB2.comments.countP (fun c => c.article_id == witArt2.id) : Int) :=
  counter_invariant witDB2
    (Relation.ReflTransGen.tail
      (Relation.ReflTransGen.tail Relation.ReflTransGen.refl
        (Step.createArticle "u1" "alice" ⟨"t", "c", ["x"], ""⟩ "a1" 0
          (by intro a ha; exact absurd ha (List.not_mem_nil a))))
      (Step.like "a1" "u1" "l1" 1 "Liked" rfl))
    witArt2 (by simp [witDB2])
